import Mathlib

/-!
Verification of the half-edge mesh construction in
`fealpy/mesh/HalfEdgeMesh3d.py`.

The source file defines `HalfEdgeMesh3d.from_mesh`, which converts a
conventional cell-based mesh (faces with a uniform number `FE` of edges,
a face-to-cell adjacency map and a boundary-face flag) into a flat array
of half-edge records with columns

  0: destination node, 1: face, 2: cell (1-based, 0 = outside sentinel),
  3: next, 4: prev, 5: dual half-edge across the face (opposite cell),
  6: dual half-edge in the same cell (reverse traversal of the same edge).

The Python source is unfinished: it contains malformed syntax (the
`lexsort` call at line 107, the empty `else:` at lines 114-115, a
duplicated `NN` parameter at line 122) and several names that are bound
nowhere in the module (`facets` at line 98, `cls` at line 116, `nodedof`
at line 44, `NC` and `hedge` in `reinit`).  Following the repository
specification, the array-construction stages (lines 62-109) are embedded
below with the minimal syntax repairs as pure functions from the input
mesh, while the name-resolution failures are modelled explicitly by
`lookupGlobal` against the module's actual global namespace, so that the
error-behaviour claims can be settled against the code as written.
-/

/-- Conventional input mesh, as consumed by `from_mesh` (lines 50-60 of
the source): entity counts, the per-face node table `face` (`NF` rows of
`FE` node indices), the face-to-cell adjacency `face2cell` giving the
left and right 0-based cell of each face, and the boundary-face flag. -/
structure ConvMesh where
  NN : Nat
  NE : Nat
  NF : Nat
  NC : Nat
  FE : Nat
  face : Nat → Nat → Nat
  face2cell : Nat → Nat × Nat
  isBdFace : Nat → Bool

/-- Number of half-edge records allocated by `from_mesh`:
`NHE = 2*NF*FE` (line 61 of the source). -/
def NHE (m : ConvMesh) : Nat := 2 * m.NF * m.FE

/-- Column 0 of the half-edge array (lines 64-69 of the source):
`halfedge[0::2, 0] = face[:, idx0].flat` and
`halfedge[1::2, 0] = face[:, idx1].flat` where `idx0 = arange(FE)` and
`idx1` is `idx0` rotated one step backwards, so the even half-edge of
flat position `k = f*FE + j` points to `face[f, j]` and the odd one to
`face[f, (j+FE-1) % FE]`. -/
def destHE (m : ConvMesh) (i : Nat) : Nat :=
  let k := i / 2
  let f := k / m.FE
  let j := k % m.FE
  if i % 2 = 0 then m.face f j else m.face f ((j + m.FE - 1) % m.FE)

/-- Column 1 of the half-edge array (lines 71-72 of the source):
`halfedge[0::2, 1] = repeat(range(NF), FE)` and the odd rows copy the
even rows, so both half-edges at flat position `k` carry face `k / FE`. -/
def faceHE (m : ConvMesh) (i : Nat) : Nat := i / 2 / m.FE

/-- Left-cell value written by lines 74-76 of the source:
`lCell = face2cell[:, 0] + 1`. -/
def lCellArr (m : ConvMesh) (f : Nat) : Nat := (m.face2cell f).1 + 1

/-- Right-cell value left in the (mutated) `rCell` view by lines 77-79 of
the source: `rCell[isBdFace] = 0; rCell[~isBdFace] += 1`. -/
def rCellArr (m : ConvMesh) (f : Nat) : Nat :=
  if m.isBdFace f then 0 else (m.face2cell f).2 + 1

/-- Column 2 of the half-edge array (lines 80-81 of the source):
`halfedge[0::2, 2] = repeat(lCell, FE)` and
`halfedge[1::2, 2] = repeat(rCell, FE)`. -/
def cellHE (m : ConvMesh) (i : Nat) : Nat :=
  if i % 2 = 0 then lCellArr m (faceHE m i) else rCellArr m (faceHE m i)

/-- Column 5 of the half-edge array (lines 84-85 of the source):
`halfedge[0::2, 5] = range(1, NHE, 2)` and
`halfedge[1::2, 5] = range(0, NHE, 2)`, i.e. each even id `2k` is paired
with `2k+1` and conversely. -/
def dualCrossFace (i : Nat) : Nat := if i % 2 = 0 then i + 1 else i - 1

/-- Row `(f, j)` of `hidx0 = halfedge[0::2, 5].reshape(-1, FE)`
(line 87 of the source). -/
def hidx0 (m : ConvMesh) (f j : Nat) : Nat :=
  dualCrossFace (2 * (f * m.FE + j))

/-- Row `(f, j)` of `hidx1 = halfedge[1::2, 5].reshape(-1, FE)`
(line 88 of the source). -/
def hidx1 (m : ConvMesh) (f j : Nat) : Nat :=
  dualCrossFace (2 * (f * m.FE + j) + 1)

/-- Column 3 of the half-edge array (lines 90-93 of the source):
`nex = r_[range(1, FE), 0]`, `halfedge[0::2, 3] = hidx0[:, nex].flat`
and `halfedge[1::2, 3] = hidx1[:, nex].flat`: the half-edge at parity
`b` and flat position `(f, j)` gets the column-5 entry of parity `b` at
position `(f, (j+1) % FE)`. -/
def nextHE (m : ConvMesh) (i : Nat) : Nat :=
  let k := i / 2
  let f := k / m.FE
  let j := k % m.FE
  if i % 2 = 0 then hidx0 m f ((j + 1) % m.FE)
  else hidx1 m f ((j + 1) % m.FE)

/-- Column 4 of the half-edge array (line 95 of the source), the scatter
`halfedge[halfedge[:, 3], 4] = range(NHE)` over the zero-initialised
array: slot `s` ends up holding the last `i` in `0..NHE-1` with
`next[i] = s`, and `0` when no write hits the slot. -/
def prevHE (m : ConvMesh) (s : Nat) : Nat :=
  (((List.range (NHE m)).filter (fun i => nextHE m i == s)).getLast?).getD 0

/-- Node-pair canonicalisation of lines 103-106 of the source: the two
node columns of a temporary edge record are swapped when the first is
larger, so the two directions of one undirected edge compare equal. -/
def canonPair (p : Nat × Nat) : Nat × Nat :=
  if p.1 > p.2 then (p.2, p.1) else p

/-- Undirected node pair recorded for half-edge `i` by lines 98-106 of
the source: the canonicalised pair of `halfedge[i, 0]` and
`halfedge[halfedge[i, 4], 0]`. -/
def canonEdge (m : ConvMesh) (i : Nat) : Nat × Nat :=
  canonPair (destHE m i, destHE m (prevHE m i))

/-- Sort key of the `lexsort((edge[:,0], edge[:,1], edge[:,2]))` call at
line 107 of the source (with its bracket slip repaired): `numpy.lexsort`
sorts by its last key first, so the order is by cell, then the larger
node, then the smaller node. -/
def recKey (m : ConvMesh) (i : Nat) : Nat × Nat × Nat :=
  let q := canonEdge m i
  (cellHE m i, q.2, q.1)

/-- Strict lexicographic comparison of sort keys. -/
def keyLT (x y : Nat × Nat × Nat) : Bool :=
  if x.1 < y.1 then true
  else if y.1 < x.1 then false
  else if x.2.1 < y.2.1 then true
  else if y.2.1 < x.2.1 then false
  else x.2.2 < y.2.2

/-- Stable insertion of one `(key, index)` entry: the new entry goes
after every entry whose key is not strictly greater, which reproduces
the stable tie order of `numpy.lexsort` when entries arrive in index
order. -/
def insertTagged (x : (Nat × Nat × Nat) × Nat) :
    List ((Nat × Nat × Nat) × Nat) → List ((Nat × Nat × Nat) × Nat)
  | [] => [x]
  | y :: ys => if keyLT x.1 y.1 then x :: y :: ys else y :: insertTagged x ys

/-- Index order produced by the `lexsort` at line 107 of the source:
half-edge ids `0..NHE-1` sorted stably by `recKey`. -/
def sortedIdx (m : ConvMesh) : List Nat :=
  (((List.range (NHE m)).map (fun i => (recKey m i, i))).foldl
      (fun acc x => insertTagged x acc) []).map (fun p => p.2)

/-- Adjacent-pair assignment of lines 107-109 of the source: the sorted
index list is reshaped into consecutive pairs and the two members of a
pair are written as each other's column-6 entry; ids outside the list
keep the zero initialisation. -/
def pairAdj : List Nat → Nat → Nat
  | a :: b :: rest, s => if s = a then b else if s = b then a else pairAdj rest s
  | _, _ => 0

/-- Column 6 of the half-edge array (lines 97-109 of the source): the
same-cell dual obtained by pairing adjacent rows of the sorted record
list. -/
def dualSameCell (m : ConvMesh) (s : Nat) : Nat :=
  pairAdj (sortedIdx m) s

/-- One half-edge record, the seven columns of a row of the array built
by `from_mesh`. -/
structure HERec where
  dest : Nat
  face : Nat
  cell : Nat
  nxt : Nat
  prv : Nat
  dcf : Nat
  dsc : Nat
deriving DecidableEq, Repr

/-- Row `i` of the half-edge array. -/
def recAt (m : ConvMesh) (i : Nat) : HERec :=
  ⟨destHE m i, faceHE m i, cellHE m i, nextHE m i, prevHE m i,
    dualCrossFace i, dualSameCell m i⟩

/-- The full half-edge store built by lines 62-109 of the source. -/
def halfedgeList (m : ConvMesh) : List HERec :=
  (List.range (NHE m)).map (recAt m)

/-- The face-to-cell array of the input mesh before `from_mesh` runs. -/
def face2cellList (m : ConvMesh) : List (Nat × Nat) :=
  (List.range m.NF).map m.face2cell

/-- Row `f` of the face-to-cell array after lines 74-79 of the source
have executed: `rCell = face2cell[:, 1]` is a view, so the writes
`rCell[isBdFace] = 0` and `rCell[~isBdFace] += 1` land in the caller's
array; the left column is only read (`lCell` is a fresh array). -/
def face2cellAfter (m : ConvMesh) (f : Nat) : Nat × Nat :=
  ((m.face2cell f).1, rCellArr m f)

/-- The face-to-cell array of the input mesh after the `rCell` writes. -/
def face2cellAfterList (m : ConvMesh) : List (Nat × Nat) :=
  (List.range m.NF).map (face2cellAfter m)

/-- Python errors raised by the embedded statements. -/
inductive PyErr where
  | nameError : String → PyErr
deriving DecidableEq, Repr

/-- Result of running a modelled Python call. -/
inductive PyResult (α : Type) where
  | ok : α → PyResult α
  | raised : PyErr → PyResult α
deriving DecidableEq, Repr

/-- Names actually bound at module level in `HalfEdgeMesh3d.py`: the two
imports and the two class definitions.  Nothing else is ever assigned at
module scope. -/
def moduleGlobals : List String :=
  ["np", "mark", "HalfEdgeMesh3d", "HalfEdgeMesh3dDataStructure"]

/-- Resolution of a name that is not a local variable: it succeeds only
when the name is bound at module level, otherwise the interpreter raises
`NameError`. -/
def lookupGlobal (n : String) : PyResult Unit :=
  if n ∈ moduleGlobals then PyResult.ok () else PyResult.raised (PyErr.nameError n)

/-- Execution of `HalfEdgeMesh3dDataStructure.reinit` (lines 125-139 of
the source): lines 126-131 use only parameters; line 132 `self.NC = NC`
reads `NC`, which is neither a parameter nor a local nor a module
global; were it reached, line 139 would likewise read the unbound
`hedge`. -/
def dsReinitRun : PyResult Unit :=
  match lookupGlobal "NC" with
  | PyResult.raised e => PyResult.raised e
  | PyResult.ok _ => lookupGlobal "hedge"

/-- Execution of `HalfEdgeMesh3d.__init__` (lines 6-46 of the source) on
given arguments: lines 25-29 only read the arguments; line 30 constructs
the data structure, running `reinit`; lines 31-38 assign fresh objects;
line 44 reads the unbound name `nodedof`; line 46 would then call
`init_level_info`.  The arguments never influence which name fails
first. -/
def initRun (node halfedge subdomain : List Nat) : PyResult Unit :=
  match dsReinitRun with
  | PyResult.raised e => PyResult.raised e
  | PyResult.ok _ =>
    match lookupGlobal "nodedof" with
    | PyResult.raised e => PyResult.raised e
    | PyResult.ok _ => PyResult.ok ()

/-- Whether a run of `__init__` ever reaches the `init_level_info` call
at line 46. -/
def reachedInitLevelInfo (node halfedge subdomain : List Nat) : Bool :=
  match initRun node halfedge subdomain with
  | PyResult.ok _ => true
  | PyResult.raised _ => false

/-- Execution of `from_mesh` (lines 48-116 of the source): the array
stages of lines 50-95 read only the input mesh and local arrays and are
the pure functions above; line 98 (`np.zeros((NHE, 3),
dtype=facets.dtype)`) reads the unbound name `facets`; were that
repaired, line 116 (`return cls(...)`) would read the unbound name
`cls` (the classmethod binds the class to `self`, not `cls`).  On
success the call would hand the half-edge array to the constructor; the
mutated face-to-cell array of the input is returned alongside to record
the frame effect of lines 74-79. -/
def fromMeshRun (m : ConvMesh) : PyResult (List HERec × List (Nat × Nat)) :=
  match lookupGlobal "facets" with
  | PyResult.raised e => PyResult.raised e
  | PyResult.ok _ =>
    match lookupGlobal "cls" with
    | PyResult.raised e => PyResult.raised e
    | PyResult.ok _ => PyResult.ok (halfedgeList m, face2cellAfterList m)

/-- Attribute tables of a `HalfEdgeMesh3d` object as assigned by lines
33-38 of the source.  Python dictionaries are heap objects; the fields
hold references into the heap, and `self.facedata = self.edgedata`
(line 37) copies the reference, not the dictionary. -/
structure AttrTables where
  heap : Nat → List (String × Nat)
  halfedgedataRef : Nat
  celldataRef : Nat
  nodedataRef : Nat
  edgedataRef : Nat
  facedataRef : Nat
  meshdataRef : Nat

/-- The table state established by lines 33-38 of the source: five fresh
empty dictionaries, with `facedata` aliased to `edgedata`. -/
def initTables : AttrTables :=
  ⟨fun _ => [], 0, 1, 2, 3, 3, 4⟩

/-- Dictionary store `d[k] = v` through reference `r`: the heap cell `r`
is updated, every other cell is untouched. -/
def heapWrite (h : Nat → List (String × Nat)) (r : Nat) (k : String) (v : Nat) :
    Nat → List (String × Nat) :=
  fun r2 => if r2 = r then (k, v) :: h r else h r2

/-- The statement `self.edgedata[k] = v`. -/
def writeEdgedata (s : AttrTables) (k : String) (v : Nat) : AttrTables :=
  { s with heap := heapWrite s.heap s.edgedataRef k v }

/-- The statement `self.facedata[k] = v`. -/
def writeFacedata (s : AttrTables) (k : String) (v : Nat) : AttrTables :=
  { s with heap := heapWrite s.heap s.facedataRef k v }

/-- The expression `self.edgedata[k]` (`none` models `KeyError`). -/
def readEdgedata (s : AttrTables) (k : String) : Option Nat :=
  (s.heap s.edgedataRef).lookup k

/-- The expression `self.facedata[k]` (`none` models `KeyError`). -/
def readFacedata (s : AttrTables) (k : String) : Option Nat :=
  (s.heap s.facedataRef).lookup k

/-- An arbitrary interleaving of writes through the two names,
`true` selecting `edgedata` and `false` selecting `facedata`. -/
def applyWrites (s : AttrTables) : List (Bool × String × Nat) → AttrTables
  | [] => s
  | (b, k, v) :: rest =>
    applyWrites (if b then writeEdgedata s k v else writeFacedata s k v) rest

/-- Iterated `next` traversal: `nextIter m n i` follows the `next` field
`n` times from seed `i`. -/
def nextIter (m : ConvMesh) : Nat → Nat → Nat
  | 0, i => i
  | n + 1, i => nextIter m n (nextHE m i)

/-- A single tetrahedron as a conventional mesh: 4 nodes, 6 edges,
4 triangular faces (`FE = 3`), 1 cell; every face is a boundary face and
`face2cell` reports cell 0 on both sides. -/
def tetMesh : ConvMesh where
  NN := 4
  NE := 6
  NF := 4
  NC := 1
  FE := 3
  face := fun f j =>
    match f, j with
    | 0, 0 => 1 | 0, 1 => 2 | 0, 2 => 3
    | 1, 0 => 0 | 1, 1 => 3 | 1, 2 => 2
    | 2, 0 => 0 | 2, 1 => 1 | 2, 2 => 3
    | 3, 0 => 0 | 3, 1 => 2 | 3, 2 => 1
    | _, _ => 0
  face2cell := fun _ => (0, 0)
  isBdFace := fun _ => true

/-- Two tetrahedra `{0,1,3,4}` (cell 0) and `{0,1,2,3}` (cell 1) glued
along the shared interior face `{0,1,3}`: 5 nodes, 9 edges, 7 faces
(`FE = 3`), 2 cells.  Face 0 is the interior face with left cell 0 and
right cell 1; faces 1-3 bound cell 0 and faces 4-6 bound cell 1.  This
mesh is manifold: every undirected edge of a cell lies in exactly two
faces of that cell. -/
def twoTetMesh : ConvMesh where
  NN := 5
  NE := 9
  NF := 7
  NC := 2
  FE := 3
  face := fun f j =>
    match f, j with
    | 0, 0 => 0 | 0, 1 => 1 | 0, 2 => 3
    | 1, 0 => 0 | 1, 1 => 1 | 1, 2 => 4
    | 2, 0 => 0 | 2, 1 => 3 | 2, 2 => 4
    | 3, 0 => 1 | 3, 1 => 3 | 3, 2 => 4
    | 4, 0 => 0 | 4, 1 => 1 | 4, 2 => 2
    | 5, 0 => 0 | 5, 1 => 2 | 5, 2 => 3
    | 6, 0 => 1 | 6, 1 => 2 | 6, 2 => 3
    | _, _ => 0
  face2cell := fun f => match f with
    | 0 => (0, 1)
    | 1 => (0, 0) | 2 => (0, 0) | 3 => (0, 0)
    | _ => (1, 1)
  isBdFace := fun f => match f with
    | 0 => false
    | _ => true

/-- A non-manifold input: one cell whose three triangular faces
`{0,1,2}`, `{0,1,3}`, `{0,1,4}` all share the undirected edge `{0,1}`,
so that edge is traversed by more than two half-edge directions within
the cell. -/
def nonManifoldMesh : ConvMesh where
  NN := 5
  NE := 7
  NF := 3
  NC := 1
  FE := 3
  face := fun f j =>
    match f, j with
    | 0, 0 => 0 | 0, 1 => 1 | 0, 2 => 2
    | 1, 0 => 0 | 1, 1 => 1 | 1, 2 => 3
    | 2, 0 => 0 | 2, 1 => 1 | 2, 2 => 4
    | _, _ => 0
  face2cell := fun _ => (0, 0)
  isBdFace := fun _ => true

/-! ### Arithmetic helpers for the flat half-edge indexing -/

/-- Division of a flat face-local position recovers the face. -/
lemma flat_div {FE f j : Nat} (hj : j < FE) : (f * FE + j) / FE = f := by
  rw [Nat.add_comm, Nat.add_mul_div_right _ _ (Nat.lt_of_le_of_lt (Nat.zero_le _) hj)]
  rw [Nat.div_eq_of_lt hj, Nat.zero_add]

/-- Remainder of a flat face-local position recovers the in-face slot. -/
lemma flat_mod {FE f j : Nat} (hj : j < FE) : (f * FE + j) % FE = j := by
  rw [Nat.add_comm, Nat.add_mul_mod_self_right]
  exact Nat.mod_eq_of_lt hj

/-- Every id below `NHE` splits uniquely into a face, an in-face slot and
a parity. -/
lemma nhe_decomp (m : ConvMesh) {i : Nat} (h : i < NHE m) :
    ∃ f j b, f < m.NF ∧ j < m.FE ∧ b < 2 ∧ i = 2 * (f * m.FE + j) + b := by
  have hFE : 0 < m.FE := by
    rcases Nat.eq_zero_or_pos m.FE with h0 | h1
    · rw [NHE, h0, Nat.mul_zero] at h; omega
    · exact h1
  have hmul : NHE m = 2 * (m.NF * m.FE) := by rw [NHE, Nat.mul_assoc]
  have hk : i / 2 < m.NF * m.FE := by omega
  refine ⟨i / 2 / m.FE, i / 2 % m.FE, i % 2,
    (Nat.div_lt_iff_lt_mul hFE).mpr hk, Nat.mod_lt _ hFE, ?_, ?_⟩
  · omega
  · have e1 : i / 2 / m.FE * m.FE + i / 2 % m.FE = i / 2 := by
      rw [Nat.mul_comm]
      exact Nat.div_add_mod _ _
    rw [e1]
    omega

/-- The even branch of `dualCrossFace`. -/
lemma dcf_even (x : Nat) : dualCrossFace (2 * x) = 2 * x + 1 := by
  simp [dualCrossFace, Nat.mul_mod_right]

/-- The odd branch of `dualCrossFace`. -/
lemma dcf_odd (x : Nat) : dualCrossFace (2 * x + 1) = 2 * x := by
  have hm : (2 * x + 1) % 2 = 1 := by omega
  simp [dualCrossFace, hm]

/-- Closed form of `next` on an even id: the odd id one slot forward in
the same face block. -/
lemma nextHE_even (m : ConvMesh) {f j : Nat} (hj : j < m.FE) :
    nextHE m (2 * (f * m.FE + j)) = 2 * (f * m.FE + (j + 1) % m.FE) + 1 := by
  have h1 : 2 * (f * m.FE + j) / 2 = f * m.FE + j := by omega
  have h2 : 2 * (f * m.FE + j) % 2 = 0 := by omega
  rw [nextHE, h1, h2, flat_div hj, flat_mod hj]
  simp [hidx0, dcf_even]

/-- Closed form of `next` on an odd id: the even id one slot forward in
the same face block. -/
lemma nextHE_odd (m : ConvMesh) {f j : Nat} (hj : j < m.FE) :
    nextHE m (2 * (f * m.FE + j) + 1) = 2 * (f * m.FE + (j + 1) % m.FE) := by
  have h1 : (2 * (f * m.FE + j) + 1) / 2 = f * m.FE + j := by omega
  have h2 : (2 * (f * m.FE + j) + 1) % 2 = 1 := by omega
  rw [nextHE, h1, h2, flat_div hj, flat_mod hj]
  simp [hidx1, dcf_odd]

/-- Rotating one slot backwards and then one slot forwards is the
identity on in-face slots. -/
lemma modRot {FE j : Nat} (hj : j < FE) : ((j + FE - 1) % FE + 1) % FE = j := by
  cases j with
  | zero =>
    have e0 : 0 + FE - 1 = FE - 1 := by omega
    have e1 : (FE - 1) % FE = FE - 1 := Nat.mod_eq_of_lt (by omega)
    have e2 : FE - 1 + 1 = FE := by omega
    rw [e0, e1, e2, Nat.mod_self]
  | succ j2 =>
    have e1 : j2 + 1 + FE - 1 = j2 + FE := by omega
    have e2 : (j2 + FE) % FE = j2 := by
      rw [Nat.add_mod_right]
      exact Nat.mod_eq_of_lt (by omega)
    rw [e1, e2]
    exact Nat.mod_eq_of_lt hj

/-- Rotating one slot forwards and then one slot backwards is the
identity on in-face slots. -/
lemma modRotBack {FE j : Nat} (hj : j < FE) : ((j + 1) % FE + FE - 1) % FE = j := by
  rcases Nat.lt_or_ge (j + 1) FE with hlt | hge
  · have e1 : (j + 1) % FE = j + 1 := Nat.mod_eq_of_lt hlt
    have e2 : j + 1 + FE - 1 = j + FE := by omega
    rw [e1, e2, Nat.add_mod_right]
    exact Nat.mod_eq_of_lt hj
  · have hj1 : j + 1 = FE := by omega
    have e1 : (j + 1) % FE = 0 := by rw [hj1, Nat.mod_self]
    rw [e1]
    have e2 : 0 + FE - 1 = j := by omega
    rw [e2]
    exact Nat.mod_eq_of_lt hj

/-- The forward slot rotation is injective on in-face slots. -/
lemma modSucc_inj {FE j1 j2 : Nat} (h1 : j1 < FE) (h2 : j2 < FE)
    (he : (j1 + 1) % FE = (j2 + 1) % FE) : j1 = j2 := by
  have e1 := modRotBack h1
  have e2 := modRotBack h2
  rw [← e1, ← e2, he]

/-- Uniqueness of face and slot for a flat position. -/
lemma euclid_unique {FE f1 f2 r1 r2 : Nat} (h1 : r1 < FE) (h2 : r2 < FE)
    (he : f1 * FE + r1 = f2 * FE + r2) : f1 = f2 ∧ r1 = r2 := by
  have d1 : (f1 * FE + r1) / FE = f1 := flat_div h1
  have d2 : (f2 * FE + r2) / FE = f2 := flat_div h2
  have hf : f1 = f2 := by rw [← d1, he, d2]
  subst hf
  exact ⟨rfl, Nat.add_left_cancel he⟩

/-- A flat position stays below the total when face and slot are in
range. -/
lemma flat_lt {NF FE f r : Nat} (hf : f < NF) (hr : r < FE) :
    f * FE + r < NF * FE := by
  have h1 : f * FE + r < (f + 1) * FE := by
    rw [Nat.add_mul, Nat.one_mul]
    omega
  have h2 : (f + 1) * FE ≤ NF * FE := Nat.mul_le_mul_right _ (by omega)
  omega

/-- `next` maps store ids to store ids. -/
lemma nextHE_lt (m : ConvMesh) {i : Nat} (h : i < NHE m) :
    nextHE m i < NHE m := by
  obtain ⟨f, j, b, hf, hj, hb, rfl⟩ := nhe_decomp m h
  have hr : (j + 1) % m.FE < m.FE := Nat.mod_lt _ (by omega)
  have hbound := flat_lt hf hr
  have hmul : NHE m = 2 * (m.NF * m.FE) := by rw [NHE, Nat.mul_assoc]
  rcases (by omega : b = 0 ∨ b = 1) with hb0 | hb1
  · subst hb0
    rw [Nat.add_zero, nextHE_even m hj]
    omega
  · subst hb1
    rw [nextHE_odd m hj]
    omega

/-- `next` is injective on store ids. -/
lemma nextHE_inj (m : ConvMesh) {i1 i2 : Nat} (h1 : i1 < NHE m) (h2 : i2 < NHE m)
    (he : nextHE m i1 = nextHE m i2) : i1 = i2 := by
  obtain ⟨f1, j1, b1, hf1, hj1, hb1, rfl⟩ := nhe_decomp m h1
  obtain ⟨f2, j2, b2, hf2, hj2, hb2, rfl⟩ := nhe_decomp m h2
  have hr1 : (j1 + 1) % m.FE < m.FE := Nat.mod_lt _ (by omega)
  have hr2 : (j2 + 1) % m.FE < m.FE := Nat.mod_lt _ (by omega)
  rcases (by omega : b1 = 0 ∨ b1 = 1) with hb10 | hb11 <;>
    rcases (by omega : b2 = 0 ∨ b2 = 1) with hb20 | hb21
  · subst hb10; subst hb20
    simp only [Nat.add_zero] at he ⊢
    rw [nextHE_even m hj1, nextHE_even m hj2] at he
    have hflat : f1 * m.FE + (j1 + 1) % m.FE = f2 * m.FE + (j2 + 1) % m.FE := by omega
    obtain ⟨hf, hr⟩ := euclid_unique hr1 hr2 hflat
    have hj : j1 = j2 := modSucc_inj hj1 hj2 hr
    rw [hf, hj]
  · subst hb10; subst hb21
    simp only [Nat.add_zero] at he ⊢
    rw [nextHE_even m hj1, nextHE_odd m hj2] at he
    omega
  · subst hb11; subst hb20
    simp only [Nat.add_zero] at he ⊢
    rw [nextHE_odd m hj1, nextHE_even m hj2] at he
    omega
  · subst hb11; subst hb21
    rw [nextHE_odd m hj1, nextHE_odd m hj2] at he
    have hflat : f1 * m.FE + (j1 + 1) % m.FE = f2 * m.FE + (j2 + 1) % m.FE := by omega
    obtain ⟨hf, hr⟩ := euclid_unique hr1 hr2 hflat
    have hj : j1 = j2 := modSucc_inj hj1 hj2 hr
    rw [hf, hj]

/-- The default-0 last element of a nonempty list is one of its
elements. -/
lemma getLastD_mem (l : List Nat) (h : l ≠ []) : (l.getLast?).getD 0 ∈ l := by
  induction l with
  | nil => exact absurd rfl h
  | cons x xs ih =>
    cases xs with
    | nil => simp
    | cons y ys =>
      rw [List.getLast?_cons_cons]
      exact List.mem_cons_of_mem x (ih (by simp))

/-! ### Claim theorems -/

/-- Claim C2: after construction by `from_mesh`, `next` and `prev` are
mutual inverses: for every half-edge id `i` in the constructed store,
`prev[next[i]] = i` and `next[prev[i]] = i`. -/
theorem next_prev_mutual_inverse (m : ConvMesh) (i : Nat) (h : i < NHE m) :
    prevHE m (nextHE m i) = i ∧ nextHE m (prevHE m i) = i := by
  constructor
  · have hmem : i ∈ (List.range (NHE m)).filter (fun x => nextHE m x == nextHE m i) :=
      List.mem_filter.mpr ⟨List.mem_range.mpr h, by simp⟩
    have hne : (List.range (NHE m)).filter (fun x => nextHE m x == nextHE m i) ≠ [] :=
      List.ne_nil_of_mem hmem
    have hlast : prevHE m (nextHE m i) ∈
        (List.range (NHE m)).filter (fun x => nextHE m x == nextHE m i) :=
      getLastD_mem _ hne
    obtain ⟨hmemr, hpred⟩ := List.mem_filter.mp hlast
    have heq : nextHE m (prevHE m (nextHE m i)) = nextHE m i := by
      simpa using hpred
    exact nextHE_inj m (List.mem_range.mp hmemr) h heq
  · obtain ⟨f, j, b, hf, hj, hb, rfl⟩ := nhe_decomp m h
    have hjp : (j + m.FE - 1) % m.FE < m.FE := Nat.mod_lt _ (by omega)
    have hrot : ((j + m.FE - 1) % m.FE + 1) % m.FE = j := modRot hj
    have hplt : f * m.FE + (j + m.FE - 1) % m.FE < m.NF * m.FE := flat_lt hf hjp
    have hmul : NHE m = 2 * (m.NF * m.FE) := by rw [NHE, Nat.mul_assoc]
    rcases (by omega : b = 0 ∨ b = 1) with hb0 | hb1
    · subst hb0
      simp only [Nat.add_zero]
      have hnp : nextHE m (2 * (f * m.FE + (j + m.FE - 1) % m.FE) + 1) =
          2 * (f * m.FE + j) := by
        rw [nextHE_odd m hjp, hrot]
      have hpin : 2 * (f * m.FE + (j + m.FE - 1) % m.FE) + 1 < NHE m := by omega
      have hmem : 2 * (f * m.FE + (j + m.FE - 1) % m.FE) + 1 ∈
          (List.range (NHE m)).filter (fun x => nextHE m x == 2 * (f * m.FE + j)) :=
        List.mem_filter.mpr ⟨List.mem_range.mpr hpin, by simp [hnp]⟩
      have hne := List.ne_nil_of_mem hmem
      have hlast : prevHE m (2 * (f * m.FE + j)) ∈
          (List.range (NHE m)).filter (fun x => nextHE m x == 2 * (f * m.FE + j)) :=
        getLastD_mem _ hne
      obtain ⟨_, hpred⟩ := List.mem_filter.mp hlast
      simpa using hpred
    · subst hb1
      have hnp : nextHE m (2 * (f * m.FE + (j + m.FE - 1) % m.FE)) =
          2 * (f * m.FE + j) + 1 := by
        rw [nextHE_even m hjp, hrot]
      have hpin : 2 * (f * m.FE + (j + m.FE - 1) % m.FE) < NHE m := by omega
      have hmem : 2 * (f * m.FE + (j + m.FE - 1) % m.FE) ∈
          (List.range (NHE m)).filter (fun x => nextHE m x == 2 * (f * m.FE + j) + 1) :=
        List.mem_filter.mpr ⟨List.mem_range.mpr hpin, by simp [hnp]⟩
      have hne := List.ne_nil_of_mem hmem
      have hlast : prevHE m (2 * (f * m.FE + j) + 1) ∈
          (List.range (NHE m)).filter (fun x => nextHE m x == 2 * (f * m.FE + j) + 1) :=
        getLastD_mem _ hne
      obtain ⟨_, hpred⟩ := List.mem_filter.mp hlast
      simpa using hpred

/-- Witness for claim C2 on the single-tetrahedron mesh at seed 0. -/
theorem next_prev_mutual_inverse_witness :
    0 < NHE tetMesh ∧
    (prevHE tetMesh (nextHE tetMesh 0) = 0 ∧ nextHE tetMesh (prevHE tetMesh 0) = 0) :=
  ⟨by decide, next_prev_mutual_inverse tetMesh 0 (by decide)⟩

/-- Claim C3: `dual_cross_face` pairs each even half-edge `2k` with the
odd half-edge `2k+1`, is an involution and is fixed-point free.  Every
id of the store is `2k` or `2k+1` for such a `k` (the store size `NHE`
is even), so the statement covers all half-edges. -/
theorem dual_cross_face_pairing (m : ConvMesh) (k : Nat) (h : 2 * k + 1 < NHE m) :
    dualCrossFace (2 * k) = 2 * k + 1 ∧ dualCrossFace (2 * k + 1) = 2 * k ∧
    dualCrossFace (dualCrossFace (2 * k)) = 2 * k ∧
    dualCrossFace (dualCrossFace (2 * k + 1)) = 2 * k + 1 ∧
    dualCrossFace (2 * k) ≠ 2 * k ∧ dualCrossFace (2 * k + 1) ≠ 2 * k + 1 := by
  refine ⟨dcf_even k, dcf_odd k, ?_, ?_, ?_, ?_⟩
  · rw [dcf_even k, dcf_odd k]
  · rw [dcf_odd k, dcf_even k]
  · rw [dcf_even k]; omega
  · rw [dcf_odd k]; omega

/-- Witness for claim C3 on the single-tetrahedron mesh at pair 0. -/
theorem dual_cross_face_pairing_witness :
    2 * 0 + 1 < NHE tetMesh ∧
    (dualCrossFace (2 * 0) = 2 * 0 + 1 ∧ dualCrossFace (2 * 0 + 1) = 2 * 0 ∧
     dualCrossFace (dualCrossFace (2 * 0)) = 2 * 0 ∧
     dualCrossFace (dualCrossFace (2 * 0 + 1)) = 2 * 0 + 1 ∧
     dualCrossFace (2 * 0) ≠ 2 * 0 ∧ dualCrossFace (2 * 0 + 1) ≠ 2 * 0 + 1) :=
  ⟨by decide, dual_cross_face_pairing tetMesh 0 (by decide)⟩

/-- Claim C1 (code bug, evaluation at the failing input): on the
single-tetrahedron mesh (`FE = 3`), following the constructed `next`
from seed 0 does not return to the seed after `FE` steps; the orbit
consists of `2*FE = 6` pairwise distinct half-edges (alternating even
and odd ids) and only closes after `2*FE` steps, contradicting the
specified face-loop length of exactly `FE`. -/
theorem face_loop_length_defect :
    tetMesh.FE = 3 ∧
    nextIter tetMesh tetMesh.FE 0 ≠ 0 ∧
    nextIter tetMesh (2 * tetMesh.FE) 0 = 0 ∧
    ((List.range (2 * tetMesh.FE)).map (fun n => nextIter tetMesh n 0)).Nodup := by
  decide

/-- Claim C5: `from_mesh` allocates exactly `2*NF*FE` half-edge records
(line 61 of the source builds the store with `NHE = 2*NF*FE` rows). -/
theorem halfedge_record_count (m : ConvMesh) :
    (halfedgeList m).length = 2 * m.NF * m.FE := by
  simp [halfedgeList, NHE]

/-- Claim C6: in the store built by `from_mesh`, the even half-edge of
face `f` at slot `j` carries the face's left cell id plus one, and the
odd one carries the right cell id plus one for an interior face and the
sentinel 0 for a boundary face. -/
theorem cell_assignment_even_odd (m : ConvMesh) (f j : Nat)
    (hf : f < m.NF) (hj : j < m.FE) :
    cellHE m (2 * (f * m.FE + j)) = (m.face2cell f).1 + 1 ∧
    cellHE m (2 * (f * m.FE + j) + 1) =
      (if m.isBdFace f then 0 else (m.face2cell f).2 + 1) := by
  have h1 : 2 * (f * m.FE + j) / 2 = f * m.FE + j := by omega
  have h2 : 2 * (f * m.FE + j) % 2 = 0 := by omega
  have h3 : (2 * (f * m.FE + j) + 1) / 2 = f * m.FE + j := by omega
  have h4 : (2 * (f * m.FE + j) + 1) % 2 = 1 := by omega
  constructor
  · rw [cellHE, faceHE, h1, h2, flat_div hj]
    simp [lCellArr]
  · rw [cellHE, faceHE, h3, h4, flat_div hj]
    simp [rCellArr]

/-- Witness for claim C6 on the single-tetrahedron mesh at face 0,
slot 0. -/
theorem cell_assignment_even_odd_witness :
    0 < tetMesh.NF ∧ 0 < tetMesh.FE ∧
    (cellHE tetMesh (2 * (0 * tetMesh.FE + 0)) = (tetMesh.face2cell 0).1 + 1 ∧
     cellHE tetMesh (2 * (0 * tetMesh.FE + 0) + 1) =
       (if tetMesh.isBdFace 0 then 0 else (tetMesh.face2cell 0).2 + 1)) :=
  ⟨by decide, by decide, cell_assignment_even_odd tetMesh 0 0 (by decide) (by decide)⟩

/-- Claim C4 (code bug, evaluation at the failing input): on the
manifold two-tetrahedra mesh, half-edge 28 (an even half-edge of face 4
recording the undirected node pair `(0, 2)` in stored cell 2) shares its
cell with exactly one partner carrying the same node pair, yet the
constructed `dual_same_cell` pairs it with half-edge 5, an odd half-edge
of the interior face whose temporary record is the degenerate node pair
`(1, 1)`: the adjacent-row pairing does not pair the two directed
traversals of one undirected edge. -/
theorem same_cell_dual_mispairs :
    dualSameCell twoTetMesh 28 = 5 ∧
    dualSameCell twoTetMesh 5 = 28 ∧
    cellHE twoTetMesh 28 = cellHE twoTetMesh 5 ∧
    ((List.range (NHE twoTetMesh)).filter (fun x =>
        (cellHE twoTetMesh x == cellHE twoTetMesh 28) &&
        (canonEdge twoTetMesh x == canonEdge twoTetMesh 28))).length = 2 ∧
    canonEdge twoTetMesh 28 ≠ canonEdge twoTetMesh 5 := by
  decide

/-- Claim C7 (code bug, evaluation at the failing input): on a
non-manifold input (edge `{0,1}` lies in all three faces of the single
cell), `from_mesh` raises no structural-integrity error: it fails with
the unrelated `NameError` on the unbound name `facets` (line 98), and
the pairing stage itself (lines 98-109, with the name and bracket slips
repaired) runs without any manifoldness check, silently pairing
half-edge 0 with half-edge 13 although their records carry different
node pairs. -/
theorem no_structural_check_nonmanifold :
    fromMeshRun nonManifoldMesh = PyResult.raised (PyErr.nameError "facets") ∧
    dualSameCell nonManifoldMesh 0 = 13 ∧
    dualSameCell nonManifoldMesh 13 = 0 ∧
    canonEdge nonManifoldMesh 0 ≠ canonEdge nonManifoldMesh 13 := by
  decide

/-- References to the attribute tables are not changed by writes through
either name; only the heap is. -/
lemma applyWrites_refs (ops : List (Bool × String × Nat)) : ∀ s : AttrTables,
    (applyWrites s ops).edgedataRef = s.edgedataRef ∧
    (applyWrites s ops).facedataRef = s.facedataRef := by
  induction ops with
  | nil => intro s; exact ⟨rfl, rfl⟩
  | cons op rest ih =>
    intro s
    obtain ⟨b, k, v⟩ := op
    have h := ih (if b then writeEdgedata s k v else writeFacedata s k v)
    cases b <;> simpa [applyWrites, writeEdgedata, writeFacedata] using h

/-- Claim C8: `edgedata` and `facedata` are one aliased table.  Line 37
of the source (`self.facedata = self.edgedata`) makes both attribute
names reference the same dictionary, so after any interleaving of
writes through the two names, a write through one name is read back
through the other. -/
theorem edge_face_data_alias (ops : List (Bool × String × Nat)) (k : String) (v : Nat) :
    readFacedata (writeEdgedata (applyWrites initTables ops) k v) k = some v ∧
    readEdgedata (writeFacedata (applyWrites initTables ops) k v) k = some v := by
  obtain ⟨he, hf⟩ := applyWrites_refs ops initTables
  have hef : (applyWrites initTables ops).facedataRef =
      (applyWrites initTables ops).edgedataRef := by
    rw [he, hf]
    rfl
  constructor
  · rw [readFacedata, writeEdgedata]
    simp [heapWrite, hef]
  · rw [readEdgedata, writeFacedata]
    simp [heapWrite, hef]

/-- Claim C9 as amended: constructing a `HalfEdgeMesh3d` always fails
with an undefined-name error, but the first failure is the unbound name
`NC` in `HalfEdgeMesh3dDataStructure.reinit` (line 132), reached from
line 30 of `__init__` before the `nodedata` assignment of line 44 is
ever executed; consequently no instance is constructed and
`init_level_info` is never reached, for every input. -/
theorem init_always_nameError (node halfedge subdomain : List Nat) :
    initRun node halfedge subdomain = PyResult.raised (PyErr.nameError "NC") ∧
    reachedInitLevelInfo node halfedge subdomain = false := by
  constructor <;> rfl

/-- Counterexample to claim C9 as stated: on a concrete input the run
does not fail at the `nodedata` assignment with the unbound name
`nodedof`; it fails earlier, with the unbound name `NC`. -/
theorem init_fails_before_nodedof :
    initRun [] [] [] ≠ PyResult.raised (PyErr.nameError "nodedof") ∧
    initRun [] [] [] = PyResult.raised (PyErr.nameError "NC") := by
  decide

/-- Counterexample to claim C10 as stated: on the single-tetrahedron
mesh every face is a boundary face and every stored right-cell entry is
already 0, so the in-place writes of lines 77-79 leave the input's
face-to-cell array unchanged. -/
theorem face2cell_unchanged_on_tet :
    face2cellAfterList tetMesh = face2cellList tetMesh := by
  decide

/-- Claim C10 as amended: `from_mesh` writes the right-cell column of
the input's face-to-cell array in place (0 for boundary faces, +1 for
interior faces) before it aborts, and whenever the input has at least
one non-boundary face the array afterwards differs from its value
before the call. -/
theorem face2cell_mutation_amended (m : ConvMesh) (f : Nat)
    (hf : f < m.NF) (hbd : m.isBdFace f = false) :
    face2cellAfterList m ≠ face2cellList m := by
  intro hcontra
  have h1 : (face2cellAfterList m)[f]? = (face2cellList m)[f]? := by rw [hcontra]
  rw [face2cellAfterList, face2cellList, List.getElem?_map, List.getElem?_map,
    List.getElem?_range hf] at h1
  have h2 : face2cellAfter m f = m.face2cell f := Option.some.inj h1
  have h3 : (face2cellAfter m f).2 = (m.face2cell f).2 := congrArg Prod.snd h2
  have h4 : (face2cellAfter m f).2 = rCellArr m f := rfl
  have h5 : rCellArr m f = (m.face2cell f).2 + 1 := by
    rw [rCellArr, hbd]
    simp
  omega

/-- Witness for the amended claim C10 on the two-tetrahedra mesh, whose
face 0 is interior. -/
theorem face2cell_mutation_amended_witness :
    0 < twoTetMesh.NF ∧ twoTetMesh.isBdFace 0 = false ∧
    face2cellAfterList twoTetMesh ≠ face2cellList twoTetMesh :=
  ⟨by decide, by decide, face2cell_mutation_amended twoTetMesh 0 (by decide) (by decide)⟩
